import Mathlib

/-!
Verification of the pyOxygenStream packet decoder
(`src/pyOxygenStream/oxygendst.py`).

The Python source is shallowly embedded: byte buffers become `List Nat`
(each entry a byte value), machine integers become `Nat`/`Int`, IEEE-754
float values are interpreted exactly as rationals (`ℚ`) via their bit
patterns (finite values only; a non-finite bit pattern is mapped to 0,
which no theorem below depends on), and Python exceptions become an
explicit `PyErr` value.  Stateful methods of `OxygenStreamReceiver`
become functions `St → St × Option PyErr`: the returned state is the
object state at the moment the method returns or raises, mirroring that
Python mutations performed before an exception persist.  The two
external libraries touched by the decoder are modelled at their value
boundary: `numpy` calls (`frombuffer`, `arange`, `c_`, `astype`) are
embedded as functions on rational lists with their documented error
behaviour, and `xml.etree.ElementTree.fromstring` is a parameter
`px : List Nat → Except PyErr XmlElem` producing an already-parsed
element tree (tag, the two attributes the decoder reads, children).
-/

namespace OxygenDst

/-- Python exception kinds raised by the decoder or the libraries it calls. -/
inductive PyErr where
  | structError
  | valueError
  | keyError
  | indexError
  | attributeError
  | typeError
  | parseError
deriving Repr, DecidableEq

/-- `packet[pos:pos+len]` — Python slicing, silently truncated at the end. -/
def readBytes (packet : List Nat) (pos len : Nat) : List Nat :=
  (packet.drop pos).take len

/-- Little-endian value of a byte list. -/
def leVal : List Nat → Nat
  | [] => 0
  | b :: bs => b + 256 * leVal bs

/-- Two's-complement reading of a `w`-bit unsigned value. -/
def signedVal (w : Nat) (v : Nat) : Int :=
  if v < 2 ^ (w - 1) then (v : Int) else (v : Int) - 2 ^ w

/-- `2 ^ e` over `ℚ` for an integer exponent. -/
def pow2Q (e : Int) : ℚ :=
  if 0 ≤ e then ((2 ^ e.toNat : Nat) : ℚ) else 1 / ((2 ^ (-e).toNat : Nat) : ℚ)

/-- Exact rational value of a finite IEEE-754 binary32 bit pattern
(non-finite patterns, exponent field 255, are mapped to 0). -/
def f32OfBits (n : Nat) : ℚ :=
  let s : Nat := n / 2 ^ 31
  let e : Nat := n / 2 ^ 23 % 2 ^ 8
  let m : Nat := n % 2 ^ 23
  let sign : ℚ := if s = 0 then 1 else -1
  if e = 0 then sign * (m : ℚ) * pow2Q (-149)
  else if e = 255 then 0
  else sign * ((2 ^ 23 + m : Nat) : ℚ) * pow2Q ((e : Int) - 150)

/-- Exact rational value of a finite IEEE-754 binary64 bit pattern
(non-finite patterns, exponent field 2047, are mapped to 0). -/
def f64OfBits (n : Nat) : ℚ :=
  let s : Nat := n / 2 ^ 63
  let e : Nat := n / 2 ^ 52 % 2 ^ 11
  let m : Nat := n % 2 ^ 52
  let sign : ℚ := if s = 0 then 1 else -1
  if e = 0 then sign * (m : ℚ) * pow2Q (-1074)
  else if e = 2047 then 0
  else sign * ((2 ^ 52 + m : Nat) : ℚ) * pow2Q ((e : Int) - 1075)

/-- Unsigned little-endian 32-bit read at `pos` (bounds checked by callers). -/
def unpackU32 (packet : List Nat) (pos : Nat) : Nat :=
  leVal (readBytes packet pos 4)

-- Wire constants from the source header block.
def DT_TOKEN_SIZE : Nat := 8
def DT_PACKET_HEADER_SIZE : Nat := 12
def DT_SUBPACKET_HEADER_SIZE : Nat := 8
def DT_SYNC_FIXED_SIZE : Nat := 28
def DT_ASYNC_FIXED_SIZE : Nat := 20

def SBT_PACKET_INFO : Nat := 1
def SBT_XML_CONFIG : Nat := 2
def SBT_SYNC_FIXED : Nat := 3
def SBT_SYNC_VARIABLE : Nat := 4
def SBT_ASYNC_FIXED : Nat := 5
def SBT_ASYNC_VARIABLE : Nat := 6
def SBT_PACKET_FOOTER : Nat := 7

/-- The `DT_DATA_TYPE` dictionary: `none` is a missing key (Python
`KeyError` on access), `some none` is the entry `False` (codes 14, 15),
`some (some s)` a dtype name string. -/
def DT_DATA_TYPE (code : Nat) : Option (Option String) :=
  match code with
  | 0 => some (some "int8")
  | 1 => some (some "uint8")
  | 2 => some (some "int16")
  | 3 => some (some "uint16")
  | 4 => some (some "int24")
  | 5 => some (some "uint24")
  | 6 => some (some "int32")
  | 7 => some (some "uint32")
  | 8 => some (some "int64")
  | 9 => some (some "uint64")
  | 10 => some (some "float32")
  | 11 => some (some "float64")
  | 12 => some (some "complex64")
  | 13 => some (some "complex128")
  | 14 => some none
  | 15 => some none
  | _ => none

/-- `np.dtype(name).itemsize`; `none` models the `TypeError` numpy raises
for a name it does not know (such as "int24"). -/
def npDtypeItemsize (dtype : String) : Option Nat :=
  if dtype = "int8" then some 1
  else if dtype = "uint8" then some 1
  else if dtype = "int16" then some 2
  else if dtype = "uint16" then some 2
  else if dtype = "int32" then some 4
  else if dtype = "uint32" then some 4
  else if dtype = "int64" then some 8
  else if dtype = "uint64" then some 8
  else if dtype = "float32" then some 4
  else if dtype = "float64" then some 8
  else if dtype = "complex64" then some 8
  else if dtype = "complex128" then some 16
  else none

/-- Value of one wire element of the given dtype from its raw bytes, already
taken to float64 semantics (exact rationals; for complex dtypes this is the
real part, which is what `astype(float64)` keeps). -/
def elemVal (dtype : String) (bs : List Nat) : ℚ :=
  if dtype = "int8" then ((signedVal 8 (leVal bs) : Int) : ℚ)
  else if dtype = "uint8" then ((leVal bs : Nat) : ℚ)
  else if dtype = "int16" then ((signedVal 16 (leVal bs) : Int) : ℚ)
  else if dtype = "uint16" then ((leVal bs : Nat) : ℚ)
  else if dtype = "int32" then ((signedVal 32 (leVal bs) : Int) : ℚ)
  else if dtype = "uint32" then ((leVal bs : Nat) : ℚ)
  else if dtype = "int64" then ((signedVal 64 (leVal bs) : Int) : ℚ)
  else if dtype = "uint64" then ((leVal bs : Nat) : ℚ)
  else if dtype = "float32" then f32OfBits (leVal bs)
  else if dtype = "float64" then f64OfBits (leVal bs)
  else if dtype = "complex64" then f32OfBits (leVal (bs.take 4))
  else if dtype = "complex128" then f64OfBits (leVal (bs.take 8))
  else 0

/-- `np.frombuffer(packet, dtype, count, offset)`: `count` contiguous
elements; `ValueError` when the buffer is too small, `TypeError` for an
unknown dtype name. -/
def npFrombuffer (packet : List Nat) (dtype : String) (offset count : Nat) :
    Except PyErr (List ℚ) :=
  match npDtypeItemsize dtype with
  | none => .error .typeError
  | some isz =>
    if offset + count * isz ≤ packet.length then
      .ok ((List.range count).map fun i =>
        elemVal dtype (readBytes packet (offset + i * isz) isz))
    else .error .valueError

/-- `np.frombuffer(packet, dtype="uint8", offset, count)` kept as raw bytes
(used by the 24-bit decode paths). -/
def npFrombufferU8 (packet : List Nat) (offset count : Nat) :
    Except PyErr (List Nat) :=
  if offset + count ≤ packet.length then .ok (readBytes packet offset count)
  else .error .valueError

/-- The strided 24-bit composition
`data[2::3](sign) * 2^16 + data[1::3] * 2^8 + data[::3]` on a raw byte
buffer of `3 * n` bytes; `signed` selects the `astype(int8)` sign
extension of the high byte. -/
def int24Compose (signed : Bool) (bs : List Nat) (n : Nat) : List Int :=
  (List.range n).map fun i =>
    (if signed then signedVal 8 (bs.getD (3 * i + 2) 0)
     else ((bs.getD (3 * i + 2) 0 : Nat) : Int)) * 65536
      + (bs.getD (3 * i + 1) 0 : Int) * 256 + (bs.getD (3 * i) 0 : Int)

/-- `np.arange(a, b)` for natural bounds, as exact rationals. -/
def npArange (a b : Nat) : List ℚ :=
  (List.range (b - a)).map fun i => ((a + i : Nat) : ℚ)

/-- `DtPacketInfo` — the six unpacked packet-info fields. -/
structure DtPacketInfo where
  protocol_version : Nat
  stream_id : Nat
  sequence_number : Nat
  stream_status : Nat
  seed : Nat
  number_of_subpackets : Nat
deriving Repr, DecidableEq

/-- A parsed XML element as `ElementTree` hands it to `parseScalingXML`:
its tag, the values of the only two attributes the decoder ever reads
(`factor`, `offset`, already as numbers — the value boundary of
`Element.get` plus the later `float(...)` conversion), and its child
elements in document order. -/
inductive XmlElem where
  | node (tag : String) (factor offset : Option ℚ) (children : List XmlElem)

def XmlElem.tag : XmlElem → String
  | .node t _ _ _ => t

def XmlElem.factor : XmlElem → Option ℚ
  | .node _ f _ _ => f

def XmlElem.offset : XmlElem → Option ℚ
  | .node _ _ o _ => o

def XmlElem.children : XmlElem → List XmlElem
  | .node _ _ _ c => c

/-- The mutable attributes of `OxygenStreamReceiver` touched by packet
processing.  `packet_xml` keeps the raw bodies of the XML sub-records
(the source stores `DtXmlSubPacket` wrappers of the decoded text),
`scaling_info` the `(factor, offset)` pairs, `channelValue` the decoded
blocks of the current packet, each a list of rows of rationals. -/
structure St where
  packet_info : DtPacketInfo
  packet_xml : List (List Nat)
  scaling_info : List (ℚ × ℚ)
  actual_channel_idx : Nat
  channelValue : List (List (List ℚ))
deriving Repr, DecidableEq

/-- What `readSamples` hands back to its caller: `empty` is `np.empty(0)`,
the sync constructors are the 1-d array / list-of-row-arrays of the two
sync paths, `asyncScalar` the structured `(u64 timestamp, value)` array of
`readSamplesAsync`, and `asyncArray` the plain Python list built by
`readArrayAsync` (a list, not an ndarray — this distinction is observable
in `processAsyncFixed`). -/
inductive SampleData where
  | empty
  | syncScalar (vals : List ℚ)
  | syncArray (rows : List (List ℚ))
  | asyncScalar (recs : List (ℚ × ℚ))
  | asyncArray (rows : List (List ℚ))
deriving Repr, DecidableEq

/-- `readSamplesSync`: scaling entry lookup (`IndexError` when the channel
index is past the table), then the dtype-selected raw decode, then
`astype(float64) * f + o`. -/
def readSamplesSync (st : St) (packet : List Nat) (pos num_samples : Nat)
    (sample_type : String) : Except PyErr (List ℚ) :=
  match st.scaling_info.get? st.actual_channel_idx with
  | none => .error .indexError
  | some (f, o) =>
    if sample_type = "int24" then
      match npFrombufferU8 packet (pos + DT_SYNC_FIXED_SIZE) (num_samples * 3) with
      | .error e => .error e
      | .ok bs => .ok ((int24Compose true bs num_samples).map fun v : Int => (v : ℚ) * f + o)
    else if sample_type = "uint24" then
      match npFrombufferU8 packet (pos + DT_SYNC_FIXED_SIZE) (num_samples * 3) with
      | .error e => .error e
      | .ok bs => .ok ((int24Compose false bs num_samples).map fun v : Int => (v : ℚ) * f + o)
    else
      match npFrombuffer packet sample_type (pos + DT_SYNC_FIXED_SIZE) num_samples with
      | .error e => .error e
      | .ok vals => .ok (vals.map fun v => v * f + o)

/-- The per-sample loop of `readArraySync`: one `frombuffer` of `dim`
elements per sample, advancing `cur` by `dim * itemsize`. -/
def readArraySyncGo (packet : List Nat) (dim : Nat) (sample_type : String) :
    Nat → Nat → Except PyErr (List (List ℚ))
  | 0, _ => .ok []
  | n + 1, cur =>
    match npFrombuffer packet sample_type cur dim with
    | .error e => .error e
    | .ok row =>
      match npDtypeItemsize sample_type with
      | none => .error .typeError
      | some isz =>
        match readArraySyncGo packet dim sample_type n (cur + dim * isz) with
        | .error e => .error e
        | .ok rows => .ok (row :: rows)

/-- `readArraySync`: `num_samples` rows of `dim` unscaled elements starting
right after the 28-byte sync-fixed header. -/
def readArraySync (packet : List Nat) (pos dim num_samples : Nat)
    (sample_type : String) : Except PyErr (List (List ℚ)) :=
  readArraySyncGo packet dim sample_type num_samples (pos + DT_SYNC_FIXED_SIZE)

/-- `readSamplesAsync`: one `frombuffer` with the packed structured dtype
`"uint64," + sample_type` (8 + itemsize bytes per record, no padding). -/
def readSamplesAsync (packet : List Nat) (pos num_samples : Nat)
    (sample_type : String) : Except PyErr (List (ℚ × ℚ)) :=
  match npDtypeItemsize sample_type with
  | none => .error .typeError
  | some isz =>
    if pos + DT_ASYNC_FIXED_SIZE + num_samples * (8 + isz) ≤ packet.length then
      .ok ((List.range num_samples).map fun i =>
        let base := pos + DT_ASYNC_FIXED_SIZE + i * (8 + isz)
        (((leVal (readBytes packet base 8) : Nat) : ℚ),
         elemVal sample_type (readBytes packet (base + 8) isz)))
    else .error .valueError

/-- The per-sample loop of `readArrayAsync`: a u64 timestamp, then `dim`
elements; the row is `samples.insert(0, ts)`. -/
def readArrayAsyncGo (packet : List Nat) (dim : Nat) (sample_type : String) :
    Nat → Nat → Except PyErr (List (List ℚ))
  | 0, _ => .ok []
  | n + 1, cur =>
    if cur + 8 ≤ packet.length then
      let ts : ℚ := ((leVal (readBytes packet cur 8) : Nat) : ℚ)
      match npFrombuffer packet sample_type (cur + 8) dim with
      | .error e => .error e
      | .ok samples =>
        match npDtypeItemsize sample_type with
        | none => .error .typeError
        | some isz =>
          match readArrayAsyncGo packet dim sample_type n (cur + 8 + dim * isz) with
          | .error e => .error e
          | .ok rows => .ok ((ts :: samples) :: rows)
    else .error .valueError

/-- `readArrayAsync`, starting right after the 20-byte async-fixed header. -/
def readArrayAsync (packet : List Nat) (pos dim num_samples : Nat)
    (sample_type : String) : Except PyErr (List (List ℚ)) :=
  readArrayAsyncGo packet dim sample_type num_samples (pos + DT_ASYNC_FIXED_SIZE)

/-- `readSamples`: dtype-table lookup, then the four-way
(sync/async × scalar/array) path selection; `False` table entries and
zero sample counts fall through to the warning branches returning
`np.empty(0)`. -/
def readSamples (st : St) (packet : List Nat)
    (channel_data_type channel_dimension number_samples pos sample_type_code : Nat) :
    Except PyErr SampleData :=
  match DT_DATA_TYPE channel_data_type with
  | none => .error .keyError
  | some none => .ok .empty
  | some (some dtype) =>
    if sample_type_code = SBT_SYNC_FIXED ∧ 0 < number_samples then
      if channel_dimension = 1 then
        (readSamplesSync st packet pos number_samples dtype).map .syncScalar
      else
        (readArraySync packet pos channel_dimension number_samples dtype).map .syncArray
    else if sample_type_code = SBT_ASYNC_FIXED ∧ 0 < number_samples then
      if channel_dimension = 1 then
        (readSamplesAsync packet pos number_samples dtype).map .asyncScalar
      else
        (readArrayAsync packet pos channel_dimension number_samples dtype).map .asyncArray
    else .ok .empty

/-- The rows `np.c_` sees in its second operand: a 1-d array contributes
one single-element row per entry, empty contributes no rows. -/
def npCRows (data : SampleData) : List (List ℚ) :=
  match data with
  | .empty => []
  | .syncScalar vals => vals.map fun v => [v]
  | .syncArray rows => rows
  | .asyncScalar recs => recs.map fun p => [p.1, p.2]
  | .asyncArray rows => rows

/-- `np.c_[timeStamps, data]`: columns are concatenated row-wise, and the
row counts of the operands must agree (`ValueError` otherwise — numpy
rejects, for example, a length-3 time column next to an empty array). -/
def npC (timeStamps : List ℚ) (data : SampleData) : Except PyErr (List (List ℚ)) :=
  let rows := npCRows data
  if timeStamps.length = rows.length then
    .ok (List.zipWith (fun t r => t :: r) timeStamps rows)
  else .error .valueError

/-- `struct.unpack_from("=2I", packet, pos)` — the sub-record header;
`none` is the `struct.error` raised when fewer than 8 bytes remain. -/
def unpackSubHeader (packet : List Nat) (pos : Nat) : Option (Nat × Nat) :=
  if pos + DT_SUBPACKET_HEADER_SIZE ≤ packet.length then
    some (unpackU32 packet pos, unpackU32 packet (pos + 4))
  else none

/-- `struct.unpack_from("=3IQd", packet, pos)` — dtype code, dimension,
sample count, u64 start timestamp, f64 timebase frequency. -/
def unpackSyncFixedHeader (packet : List Nat) (pos : Nat) :
    Option (Nat × Nat × Nat × Nat × ℚ) :=
  if pos + DT_SYNC_FIXED_SIZE ≤ packet.length then
    some (unpackU32 packet pos, unpackU32 packet (pos + 4), unpackU32 packet (pos + 8),
      leVal (readBytes packet (pos + 12) 8),
      f64OfBits (leVal (readBytes packet (pos + 20) 8)))
  else none

/-- `struct.unpack_from("=3Id", packet, pos)` — dtype code, dimension,
sample count, f64 timebase frequency. -/
def unpackAsyncFixedHeader (packet : List Nat) (pos : Nat) :
    Option (Nat × Nat × Nat × ℚ) :=
  if pos + DT_ASYNC_FIXED_SIZE ≤ packet.length then
    some (unpackU32 packet pos, unpackU32 packet (pos + 4), unpackU32 packet (pos + 8),
      f64OfBits (leVal (readBytes packet (pos + 12) 8)))
  else none

/-- `processPacketInfo`: unpack `"=6I"` into the six packet-info fields. -/
def processPacketInfo (st : St) (packet : List Nat) (pos : Nat) : St × Option PyErr :=
  if pos + 24 ≤ packet.length then
    ({ st with packet_info :=
        { protocol_version := unpackU32 packet pos
          stream_id := unpackU32 packet (pos + 4)
          sequence_number := unpackU32 packet (pos + 8)
          stream_status := unpackU32 packet (pos + 12)
          seed := unpackU32 packet (pos + 16)
          number_of_subpackets := unpackU32 packet (pos + 20) } }, none)
  else (st, some .structError)

/-- The per-child loop of `parseScalingXML`: `child[0]` (an `IndexError`
when the child has no nested element, leaving the entries appended so
far in place), then `get("factor")` / `get("offset")` with defaults 1
and 0. -/
def parseScalingXMLGo : List XmlElem → List (ℚ × ℚ) → List (ℚ × ℚ) × Option PyErr
  | [], acc => (acc, none)
  | child :: rest, acc =>
    match child.children.head? with
    | none => (acc, some .indexError)
    | some g => parseScalingXMLGo rest (acc ++ [(g.factor.getD 1, g.offset.getD 0)])

/-- `parseScalingXML` on the parsed root element: append one scaling entry
per child of a `ChannelInfo` root, leave the table alone otherwise. -/
def parseScalingXML (root : XmlElem) (scaling : List (ℚ × ℚ)) :
    List (ℚ × ℚ) × Option PyErr :=
  if root.tag = "ChannelInfo" then parseScalingXMLGo root.children scaling
  else (scaling, none)

/-- `processXmlConfig`: slice the body, append it to `packet_xml`, then
parse it (`px` standing for `ET.fromstring` of the decoded text) and run
`parseScalingXML`.  The `packet_xml` append survives a parse error, as
in the source. -/
def processXmlConfig (px : List Nat → Except PyErr XmlElem) (st : St)
    (packet : List Nat) (pos size : Nat) : St × Option PyErr :=
  let body := readBytes packet pos size
  let st1 := { st with packet_xml := st.packet_xml ++ [body] }
  match px body with
  | .error e => (st1, some e)
  | .ok root =>
    let r := parseScalingXML root st1.scaling_info
    ({ st1 with scaling_info := r.1 }, r.2)

/-- `processSyncFixed`: unpack the header, read the samples, build
`np.arange(ts, ts + n) / freq`, column-join with `np.c_`, append the
block and advance the channel index.  Any raise leaves the state as it
was, since both mutations come last. -/
def processSyncFixed (st : St) (packet : List Nat) (pos : Nat) : St × Option PyErr :=
  match unpackSyncFixedHeader packet pos with
  | none => (st, some .structError)
  | some (cdt, dim, nsamp, ts, freq) =>
    match readSamples st packet cdt dim nsamp pos SBT_SYNC_FIXED with
    | .error e => (st, some e)
    | .ok data =>
      let timeStamps := (npArange ts (ts + nsamp)).map fun t => t / freq
      match npC timeStamps data with
      | .error e => (st, some e)
      | .ok block =>
        ({ st with channelValue := st.channelValue ++ [block],
                   actual_channel_idx := st.actual_channel_idx + 1 }, none)

/-- `processAsyncFixed`: unpack the header, read the samples, then
`if data.size > 0` — an `AttributeError` when `data` is the plain Python
list built by `readArrayAsync`; for the structured scalar array the
nonempty case divides the `f0` column by the frequency and joins it with
`f1`, the empty case appends `data` itself (an empty block).  The two
sync constructors cannot reach here from `readSamples`; the field
accesses `data["f0"]`/`data["f1"]` they would hit are kept as errors. -/
def processAsyncFixed (st : St) (packet : List Nat) (pos : Nat) : St × Option PyErr :=
  match unpackAsyncFixedHeader packet pos with
  | none => (st, some .structError)
  | some (cdt, dim, nsamp, freq) =>
    match readSamples st packet cdt dim nsamp pos SBT_ASYNC_FIXED with
    | .error e => (st, some e)
    | .ok data =>
      match data with
      | .asyncArray _ => (st, some .attributeError)
      | .asyncScalar recs =>
        let block := if 0 < recs.length then recs.map (fun p => [p.1 / freq, p.2]) else []
        ({ st with channelValue := st.channelValue ++ [block],
                   actual_channel_idx := st.actual_channel_idx + 1 }, none)
      | .empty =>
        ({ st with channelValue := st.channelValue ++ [[]],
                   actual_channel_idx := st.actual_channel_idx + 1 }, none)
      | .syncScalar _ => (st, some .indexError)
      | .syncArray _ => (st, some .indexError)

/-- The `while pos < len(packet) and not hit_footer` loop of
`processPacket`, with an explicit fuel (`none` = the loop is still
running after `fuel` iterations).  `hit_footer` is threaded exactly as
in the source: initialised by the caller and never assigned in the body.
The four type tests are the source's four independent `if` statements; a
raise in any handler propagates out with the state at that moment. -/
def processPacketLoop (px : List Nat → Except PyErr XmlElem) (packet : List Nat) :
    Nat → Nat → Bool → St → Option (St × Option PyErr)
  | 0, _, _, _ => none
  | fuel + 1, pos, hit_footer, st =>
    if pos < packet.length ∧ hit_footer = false then
      match unpackSubHeader packet pos with
      | none => some (st, some .structError)
      | some (sub_packet_size, sub_packet_type) =>
        match (if sub_packet_type = SBT_PACKET_INFO then
                processPacketInfo st packet (pos + DT_SUBPACKET_HEADER_SIZE)
              else (st, none)) with
        | (st1, some e) => some (st1, some e)
        | (st1, none) =>
          match (if sub_packet_type = SBT_XML_CONFIG then
                  processXmlConfig px st1 packet (pos + DT_SUBPACKET_HEADER_SIZE)
                    (sub_packet_size - DT_SUBPACKET_HEADER_SIZE)
                else (st1, none)) with
          | (st2, some e) => some (st2, some e)
          | (st2, none) =>
            match (if sub_packet_type = SBT_SYNC_FIXED then
                    processSyncFixed st2 packet (pos + DT_SUBPACKET_HEADER_SIZE)
                  else (st2, none)) with
            | (st3, some e) => some (st3, some e)
            | (st3, none) =>
              match (if sub_packet_type = SBT_ASYNC_FIXED then
                      processAsyncFixed st3 packet (pos + DT_SUBPACKET_HEADER_SIZE)
                    else (st3, none)) with
              | (st4, some e) => some (st4, some e)
              | (st4, none) =>
                processPacketLoop px packet fuel (pos + sub_packet_size) hit_footer st4
    else some (st, none)

/-- `processPacket`: reset the channel index, then run the dispatch loop
from offset 0 with `hit_footer = False`.  The fuel `packet.length + 1`
is enough for any run in which every sub-record size is positive; a run
that exhausts it (result `none`) corresponds to the Python loop not
having terminated within that many iterations. -/
def processPacket (px : List Nat → Except PyErr XmlElem) (packet : List Nat)
    (st : St) : Option (St × Option PyErr) :=
  processPacketLoop px packet (packet.length + 1) 0 false
    { st with actual_channel_idx := 0 }

/-- The `while data_to_read:` loop of `recvFixedSize`, with an explicit
fuel.  `recvs i` is the byte count the socket's `recv_into` would offer
on its `i`-th call; an actual call returns at most the requested
`data_to_read`, hence the `min`.  The result is the total number of
bytes consumed from the socket (`none` = still looping after `fuel`
iterations). -/
def recvFixedSizeLoop (recvs : Nat → Nat) :
    Nat → Nat → Nat → Nat → Option Nat
  | 0, _, _, _ => none
  | fuel + 1, callIdx, data_to_read, received =>
    if data_to_read ≠ 0 then
      let num_bytes := min (recvs callIdx) data_to_read
      recvFixedSizeLoop recvs fuel (callIdx + 1) (data_to_read - num_bytes)
        (received + num_bytes)
    else some received

/-- `recvFixedSize(s, size)` against a socket whose successive reads offer
`recvs 0, recvs 1, ...` bytes. -/
def recvFixedSize (recvs : Nat → Nat) (fuel size : Nat) : Option Nat :=
  recvFixedSizeLoop recvs fuel 0 size 0

/-- A fresh receiver state as `__init__` leaves it. -/
def initSt : St :=
  { packet_info :=
      { protocol_version := 0, stream_id := 0, sequence_number := 0
        stream_status := 0, seed := 0, number_of_subpackets := 0 }
    packet_xml := []
    scaling_info := []
    actual_channel_idx := 0
    channelValue := [] }

/-- Little-endian bytes of a u32. -/
def u32le (n : Nat) : List Nat :=
  [n % 256, n / 256 % 256, n / 65536 % 256, n / 16777216 % 256]

/-- Little-endian bytes of a u64. -/
def u64le (n : Nat) : List Nat :=
  u32le (n % 4294967296) ++ u32le (n / 4294967296)

/-- A parse function standing for `ET.fromstring` where the XML content is
irrelevant to the run (its result is never consulted). -/
def pxNone : List Nat → Except PyErr XmlElem :=
  fun _ => .error .parseError

/-- Stand-in bytes for the body of the end-to-end scenario's XML
sub-record (`<`, `C`, `>`). -/
def c1XmlBody : List Nat := [60, 67, 62]

/-- The parsed configuration of the end-to-end scenario: a `ChannelInfo`
root declaring exactly one channel whose nested element carries
`factor="1"` and `offset="0"`. -/
def c1Tree : XmlElem :=
  .node "ChannelInfo" none none
    [.node "Channel" none none [.node "Scaling" (some 1) (some 0) []]]

/-- The end-to-end scenario's payload: a packet-info sub-record with
status 0, the XML-config sub-record, and a sync-fixed sub-record with
dtype code 10 (float32), dimension 1, count 3, start timestamp 0,
timebase frequency 1.0 and samples 1.0, 2.0, 3.0. -/
def c1Payload : List Nat :=
  (u32le 32 ++ u32le SBT_PACKET_INFO
    ++ u32le 0x01050000 ++ u32le 1 ++ u32le 0 ++ u32le 0 ++ u32le 0 ++ u32le 3)
  ++ (u32le 11 ++ u32le SBT_XML_CONFIG ++ c1XmlBody)
  ++ (u32le 48 ++ u32le SBT_SYNC_FIXED
    ++ u32le 10 ++ u32le 1 ++ u32le 3 ++ u64le 0 ++ u64le 0x3FF0000000000000
    ++ u32le 0x3F800000 ++ u32le 0x40000000 ++ u32le 0x40400000)

/-- A sync-fixed sub-record declaring the unsupported dtype code 14 with
dimension 1 and sample count 3. -/
def c4Payload : List Nat :=
  u32le 36 ++ u32le SBT_SYNC_FIXED
    ++ u32le 14 ++ u32le 1 ++ u32le 3 ++ u64le 0 ++ u64le 0x3FF0000000000000

/-- A payload whose single sub-record header declares size 0. -/
def c5ZeroPayload : List Nat := u32le 0 ++ u32le 0

/-- An 8-byte payload whose sub-record header declares size 100. -/
def c5OversizePayload : List Nat := u32le 100 ++ u32le SBT_ASYNC_VARIABLE

/-- A footer sub-record followed by a decodable sync-fixed sub-record
(float32, dimension 1, one sample 1.0, start 0, frequency 1.0). -/
def c6Payload : List Nat :=
  u32le 8 ++ u32le SBT_PACKET_FOOTER
  ++ (u32le 40 ++ u32le SBT_SYNC_FIXED
    ++ u32le 10 ++ u32le 1 ++ u32le 1 ++ u64le 0 ++ u64le 0x3FF0000000000000
    ++ u32le 0x3F800000)

/-- A receiver state with one scaling entry `(1, 0)` installed. -/
def c6St : St := { initSt with scaling_info := [(1, 0)] }

/-- An async-fixed sub-record with dtype code 11 (float64), dimension 2,
one sample: timestamp 7 (raw ticks), values 5.0 and 6.0, frequency 1.0. -/
def c7Payload : List Nat :=
  u32le 52 ++ u32le SBT_ASYNC_FIXED
    ++ u32le 11 ++ u32le 2 ++ u32le 1 ++ u64le 0x3FF0000000000000
    ++ u64le 7 ++ u64le 0x4014000000000000 ++ u64le 0x4018000000000000

/-- C1: for the synthetic packet whose payload holds one packet-info
sub-record with status 0, one XML-config sub-record whose document
declares exactly one channel with factor 1 and offset 0, and one
sync-fixed sub-record with dtype code 10 (float32), dimension 1, count 3,
start timestamp 0, timebase frequency 1 and samples 1.0, 2.0, 3.0,
`processPacket` produces exactly one decoded channel block, with rows
`[[0,1],[1,2],[2,3]]`, and finishes without an error. -/
theorem c1_end_to_end_scenario :
    (processPacket (fun _ => Except.ok c1Tree) c1Payload initSt).map
        (fun r => (r.1.channelValue, r.2))
      = some ([[[0, 1], [1, 2], [2, 3]]], none) := by with_unfolding_all rfl

/-- C4: a sync-fixed sub-record declaring dtype code 14 with a nonzero
sample count does not yield an empty block with processing continuing —
`np.c_` raises a `ValueError` (length-3 time column against the empty
data array), the exception propagates out of `processPacket`, and no
block is produced; with sample count 0 the empty block does get
appended; and the complex dtype code 12 takes the ordinary numeric
decode path, yielding a non-empty block rather than an empty one. -/
theorem c4_unsupported_dtype_crashes :
    (processPacket pxNone c4Payload initSt).map (fun r => (r.1.channelValue, r.2))
        = some ([], some PyErr.valueError) ∧
    (processPacket pxNone
        (u32le 36 ++ u32le SBT_SYNC_FIXED
          ++ u32le 14 ++ u32le 1 ++ u32le 0 ++ u64le 0 ++ u64le 0x3FF0000000000000)
        initSt).map (fun r => (r.1.channelValue, r.2))
      = some ([[]], none) ∧
    (processPacket pxNone
        (u32le 44 ++ u32le SBT_SYNC_FIXED
          ++ u32le 12 ++ u32le 1 ++ u32le 1 ++ u64le 0 ++ u64le 0x3FF0000000000000
          ++ u32le 0x3F800000 ++ u32le 0x40000000)
        c6St).map (fun r => (r.1.channelValue, r.2))
      = some ([[[0, 1]]], none) := by
  refine ⟨?_, ?_, ?_⟩
  · with_unfolding_all rfl
  · with_unfolding_all rfl
  · with_unfolding_all rfl

/-- C5: the dispatcher performs no sub-record size validation: on a
sub-record header declaring size 0 the dispatch loop never terminates
(every fuel bound is exhausted with the loop still running), and a size
field extending far past the payload end is accepted silently — the
sub-record is skipped and the packet completes without any error
signal, rather than a fatal framing error being reported. -/
theorem c5_no_size_validation :
    (∀ fuel st, processPacketLoop pxNone c5ZeroPayload fuel 0 false st = none) ∧
    (processPacket pxNone c5OversizePayload initSt).map
        (fun r => (r.1.channelValue, r.2))
      = some ([], none) := by
  constructor
  · intro fuel
    induction fuel with
    | zero => intro st; rfl
    | succ n ih => intro st; exact ih st
  · with_unfolding_all rfl

/-- C6: the dispatch loop does not stop at a footer sub-record: the
`hit_footer` flag is tested but never set, so a sync-fixed sub-record
positioned after a footer in the same payload is decoded and its block
appended (here producing the block `[[0, 1]]`), contradicting the claim
that nothing after a footer is decoded. -/
theorem c6_footer_does_not_terminate :
    (processPacket pxNone c6Payload c6St).map (fun r => (r.1.channelValue, r.2))
      = some ([[[0, 1]]], none) := by with_unfolding_all rfl

/-- C7: `readArrayAsync` does build one row per sample of the form
`[timestamp, value_0, ..., value_{dim-1}]` with the timestamp in raw
ticks, but the block is never appended: `processAsyncFixed` evaluates
`data.size` on the plain Python list `readArrayAsync` returns, raising
an `AttributeError`, so `processPacket` aborts with no block produced. -/
theorem c7_async_array_never_appended :
    readArrayAsync c7Payload 8 2 1 "float64" = .ok [[7, 5, 6]] ∧
    (processPacket pxNone c7Payload initSt).map (fun r => (r.1.channelValue, r.2))
      = some ([], some PyErr.attributeError) := by
  constructor
  · with_unfolding_all rfl
  · with_unfolding_all rfl

/-- When the `recvFixedSize` loop terminates, the total number of bytes
consumed from the socket equals the initial remaining count plus what
had been received already. -/
theorem recvFixedSizeLoop_total (recvs : Nat → Nat) :
    ∀ fuel callIdx d received r,
      recvFixedSizeLoop recvs fuel callIdx d received = some r → r = received + d := by
  intro fuel
  induction fuel with
  | zero => intro c d received r h; exact absurd h (by simp [recvFixedSizeLoop])
  | succ n ih =>
    intro c d received r h
    unfold recvFixedSizeLoop at h
    by_cases hd : d ≠ 0
    · rw [if_pos hd] at h
      have hmin : min (recvs c) d ≤ d := Nat.min_le_right _ _
      have := ih (c + 1) (d - min (recvs c) d) (received + min (recvs c) d) r h
      omega
    · rw [if_neg hd] at h
      cases h
      omega

/-- C8: `recvFixedSize` does return exactly `size` bytes whenever its
loop terminates (it never over-reads), but it does not terminate when
the connection is closed before the bytes arrive: a socket whose
`recv_into` keeps returning 0 bytes leaves `data_to_read` unchanged and
the loop spins forever, instead of surfacing a connection-closed error. -/
theorem c8_recv_fixed_size :
    (∀ fuel, recvFixedSize (fun _ => 0) fuel 1 = none) ∧
    (∀ recvs fuel size r, recvFixedSize recvs fuel size = some r → r = size) := by
  constructor
  · have h : ∀ fuel c, recvFixedSizeLoop (fun _ => 0) fuel c 1 0 = none := by
      intro fuel
      induction fuel with
      | zero => intro c; rfl
      | succ n ih => intro c; exact ih (c + 1)
    intro fuel
    exact h fuel 0
  · intro recvs fuel size r h
    simpa using recvFixedSizeLoop_total recvs fuel 0 size 0 r h

/-- Witness for C8 at a concrete socket: a socket offering 3 then 10
bytes satisfies a request for 5 bytes with exactly 5 bytes consumed, and
the closed socket never terminates within 7 iterations. -/
theorem c8_recv_fixed_size_witness :
    recvFixedSize (fun _ => 0) 7 1 = none ∧ (5 : Nat) = 5 :=
  ⟨c8_recv_fixed_size.1 7,
   c8_recv_fixed_size.2 (fun i => if i = 0 then 3 else 10) 9 5 5 (by decide)⟩

/-- C2: for every buffer whose sample area holds the raw 3-byte samples
`bs` and every installed scaling entry `(f, o)`, the "int24" decode of
`readSamplesSync` yields, for each sample `i`, the value
`sign_extend(high) * 65536 + mid * 256 + low` scaled by `v * f + o`
(with `low = bs[3i]`, `mid = bs[3i+1]`, `high = bs[3i+2]`), and the
"uint24" decode yields the same composition with the high byte taken
unsigned. -/
theorem c2_int24_decode (pre bs : List Nat) (pos n : Nat) (f o : ℚ) (st : St)
    (hpre : pre.length = pos + DT_SYNC_FIXED_SIZE)
    (hlen : bs.length = 3 * n)
    (hsc : st.scaling_info.get? st.actual_channel_idx = some (f, o)) :
    readSamplesSync st (pre ++ bs) pos n "int24"
        = .ok ((List.range n).map fun i =>
            ((signedVal 8 (bs.getD (3 * i + 2) 0) * 65536
              + (bs.getD (3 * i + 1) 0 : Int) * 256 + (bs.getD (3 * i) 0 : Int) : Int) : ℚ)
              * f + o) ∧
    readSamplesSync st (pre ++ bs) pos n "uint24"
        = .ok ((List.range n).map fun i =>
            ((bs.getD (3 * i + 2) 0 * 65536
              + bs.getD (3 * i + 1) 0 * 256 + bs.getD (3 * i) 0 : Nat) : ℚ) * f + o) := by
  have hbound : pos + DT_SYNC_FIXED_SIZE + n * 3 ≤ (pre ++ bs).length := by
    rw [List.length_append, hpre, hlen]
    omega
  have hb : readBytes (pre ++ bs) (pos + DT_SYNC_FIXED_SIZE) (n * 3) = bs := by
    rw [readBytes, ← hpre, List.drop_left]
    rw [show n * 3 = bs.length by omega]
    exact List.take_length bs
  have hfb : npFrombufferU8 (pre ++ bs) (pos + DT_SYNC_FIXED_SIZE) (n * 3) = .ok bs := by
    rw [npFrombufferU8, if_pos hbound, hb]
  constructor
  · rw [readSamplesSync, hsc]
    simp only [String.reduceEq, reduceIte, hfb, int24Compose, List.map_map]
    congr 1
  · rw [readSamplesSync, hsc]
    simp only [String.reduceEq, reduceIte, hfb, int24Compose, List.map_map]
    congr 1

/-- Witness for C2 at the repository's own unit-test input: raw bytes
`00 00 00, 01 00 00, ff ff ff` with factor 2 and offset 1 decode to
`1, 3, -1` (signed) and `1, 3, 33554431` (unsigned). -/
theorem c2_int24_decode_witness :
    readSamplesSync { initSt with scaling_info := [(2, 1)] }
        (List.replicate 28 0 ++ [0, 0, 0, 1, 0, 0, 255, 255, 255]) 0 3 "int24"
      = .ok [1, 3, -1] ∧
    readSamplesSync { initSt with scaling_info := [(2, 1)] }
        (List.replicate 28 0 ++ [0, 0, 0, 1, 0, 0, 255, 255, 255]) 0 3 "uint24"
      = .ok [1, 3, 33554431] := by
  have h := c2_int24_decode (List.replicate 28 0) [0, 0, 0, 1, 0, 0, 255, 255, 255]
    0 3 2 1 { initSt with scaling_info := [(2, 1)] } (by decide) (by decide) (by decide)
  refine ⟨?_, ?_⟩
  · rw [h.1]; with_unfolding_all rfl
  · rw [h.2]; with_unfolding_all rfl

/-- Joining a time column to rows with `np.c_` and then reading each
row's head gives back the time column. -/
theorem map_headq_zipWith_cons (ts : List ℚ) (rows : List (List ℚ))
    (h : ts.length = rows.length) :
    (List.zipWith (fun t r => t :: r) ts rows).map List.head? = ts.map some := by
  induction ts generalizing rows with
  | nil => simp
  | cons t ts ih =>
    cases rows with
    | nil => simp at h
    | cons r rows =>
      simp only [List.zipWith_cons_cons, List.map_cons, List.head?_cons]
      rw [ih rows (by simpa using h)]

/-- C3: for every sync-fixed sub-record with a supported scalar dtype,
sample count `N > 0`, start timestamp `T` and timebase frequency `F`,
whenever `processSyncFixed` completes without an error it appends
exactly one block whose per-sample time column is the arithmetic
progression `[T/F, (T+1)/F, ..., (T+N-1)/F]`. -/
theorem c3_sync_timestamp_law (packet : List Nat) (pos : Nat) (st st' : St)
    (cdt nsamp ts : Nat) (dtname : String) (freq : ℚ)
    (hhdr : unpackSyncFixedHeader packet pos = some (cdt, 1, nsamp, ts, freq))
    (_hdt : DT_DATA_TYPE cdt = some (some dtname))
    (_hn : 0 < nsamp)
    (hok : processSyncFixed st packet pos = (st', none)) :
    st'.channelValue.dropLast = st.channelValue ∧
    st'.channelValue.getLast?.map (fun block => block.map List.head?)
      = some ((List.range nsamp).map fun i => some (((ts + i : Nat) : ℚ) / freq)) := by
  rw [processSyncFixed, hhdr] at hok
  dsimp only at hok
  cases hrs : readSamples st packet cdt 1 nsamp pos SBT_SYNC_FIXED with
  | error e =>
    rw [hrs] at hok
    dsimp only at hok
    exact absurd (congrArg Prod.snd hok) (by simp)
  | ok data =>
    rw [hrs] at hok
    dsimp only at hok
    cases hc : npC ((npArange ts (ts + nsamp)).map fun t => t / freq) data with
    | error e =>
      rw [hc] at hok
      dsimp only at hok
      exact absurd (congrArg Prod.snd hok) (by simp)
    | ok block =>
      rw [hc] at hok
      dsimp only at hok
      have hst : st' = { st with channelValue := st.channelValue ++ [block],
                                 actual_channel_idx := st.actual_channel_idx + 1 } :=
        (congrArg Prod.fst hok).symm
      rw [npC] at hc
      split at hc
      case isFalse => exact absurd hc (by simp)
      case isTrue hl =>
        have hblock : block
            = List.zipWith (fun t r => t :: r)
                ((npArange ts (ts + nsamp)).map fun t => t / freq) (npCRows data) := by
          cases hc
          rfl
        subst hst
        refine ⟨?_, ?_⟩
        · show (st.channelValue ++ [block]).dropLast = st.channelValue
          exact List.dropLast_concat
        · show (st.channelValue ++ [block]).getLast?.map (fun b => b.map List.head?) = _
          rw [List.getLast?_concat, Option.map_some', hblock,
            map_headq_zipWith_cons _ _ hl]
          rw [npArange, Nat.add_sub_cancel_left, List.map_map, List.map_map]
          rfl

/-- The sync-fixed sub-record used as the C3 witness: dtype 10 (float32),
dimension 1, three samples 1.0, 2.0, 3.0, start timestamp 5,
frequency 2.0. -/
def c3Packet : List Nat :=
  u32le 10 ++ u32le 1 ++ u32le 3 ++ u64le 5 ++ u64le 0x4000000000000000
    ++ u32le 0x3F800000 ++ u32le 0x40000000 ++ u32le 0x40400000

def c3St : St := { initSt with scaling_info := [(1, 0)] }

def c3Block : List (List ℚ) := [[5 / 2, 1], [3, 2], [7 / 2, 3]]

def c3StFinal : St := { c3St with channelValue := [c3Block], actual_channel_idx := 1 }

/-- Witness for C3 at a concrete sub-record: start 5, frequency 2, three
samples, time column `[5/2, 3, 7/2]`. -/
theorem c3_sync_timestamp_law_witness :
    c3StFinal.channelValue.dropLast = c3St.channelValue ∧
    c3StFinal.channelValue.getLast?.map (fun block => block.map List.head?)
      = some ((List.range 3).map fun i => some (((5 + i : Nat) : ℚ) / 2)) :=
  c3_sync_timestamp_law c3Packet 0 c3St c3StFinal 10 3 5 "float32" 2
    (by with_unfolding_all rfl) (by rfl) (by decide) (by with_unfolding_all rfl)

/-- `parseScalingXMLGo` only ever appends to the accumulated table,
whether it completes or stops at a childless element. -/
theorem parseScalingXMLGo_monotone :
    ∀ (children : List XmlElem) (acc : List (ℚ × ℚ)),
      ∃ t, (parseScalingXMLGo children acc).1 = acc ++ t := by
  intro children
  induction children with
  | nil =>
    intro acc
    exact ⟨[], by simp [parseScalingXMLGo]⟩
  | cons c rest ih =>
    intro acc
    cases hc : c.children.head? with
    | none =>
      refine ⟨[], ?_⟩
      simp [parseScalingXMLGo, hc]
    | some g =>
      obtain ⟨t, ht⟩ := ih (acc ++ [(g.factor.getD 1, g.offset.getD 0)])
      refine ⟨(g.factor.getD 1, g.offset.getD 0) :: t, ?_⟩
      rw [parseScalingXMLGo, hc, ht]
      simp

/-- `parseScalingXML` only ever appends to the scaling table. -/
theorem parseScalingXML_monotone (root : XmlElem) (scaling : List (ℚ × ℚ)) :
    ∃ t, (parseScalingXML root scaling).1 = scaling ++ t := by
  rw [parseScalingXML]
  split
  · exact parseScalingXMLGo_monotone root.children scaling
  · exact ⟨[], by simp⟩

/-- The new receiver state extends the old one: channel blocks and
scaling entries are only appended. -/
def extendsSt (old new : St) : Prop :=
  (∃ t, new.channelValue = old.channelValue ++ t) ∧
  (∃ u, new.scaling_info = old.scaling_info ++ u)

theorem extendsSt_refl (st : St) : extendsSt st st :=
  ⟨⟨[], by simp⟩, ⟨[], by simp⟩⟩

theorem extendsSt_trans {a b c : St} (h1 : extendsSt a b) (h2 : extendsSt b c) :
    extendsSt a c := by
  obtain ⟨⟨t1, ht1⟩, ⟨u1, hu1⟩⟩ := h1
  obtain ⟨⟨t2, ht2⟩, ⟨u2, hu2⟩⟩ := h2
  exact ⟨⟨t1 ++ t2, by rw [ht2, ht1, List.append_assoc]⟩,
         ⟨u1 ++ u2, by rw [hu2, hu1, List.append_assoc]⟩⟩

/-- `processSyncFixed` either raises with the state untouched or appends
exactly one block and advances the channel index. -/
theorem processSyncFixed_cases (st : St) (packet : List Nat) (pos : Nat) :
    (processSyncFixed st packet pos).2 ≠ none ∧ (processSyncFixed st packet pos).1 = st ∨
    (processSyncFixed st packet pos).2 = none ∧
      ∃ b, (processSyncFixed st packet pos).1
        = { st with channelValue := st.channelValue ++ [b],
                    actual_channel_idx := st.actual_channel_idx + 1 } := by
  unfold processSyncFixed
  dsimp only
  repeat' split
  all_goals first
    | exact Or.inl ⟨by simp, rfl⟩
    | exact Or.inr ⟨rfl, _, rfl⟩

/-- `processAsyncFixed` either raises with the state untouched or appends
exactly one block and advances the channel index. -/
theorem processAsyncFixed_cases (st : St) (packet : List Nat) (pos : Nat) :
    (processAsyncFixed st packet pos).2 ≠ none ∧ (processAsyncFixed st packet pos).1 = st ∨
    (processAsyncFixed st packet pos).2 = none ∧
      ∃ b, (processAsyncFixed st packet pos).1
        = { st with channelValue := st.channelValue ++ [b],
                    actual_channel_idx := st.actual_channel_idx + 1 } := by
  unfold processAsyncFixed
  dsimp only
  repeat' split
  all_goals first
    | exact Or.inl ⟨by simp, rfl⟩
    | exact Or.inr ⟨rfl, _, rfl⟩

theorem processPacketInfo_extends (st : St) (packet : List Nat) (pos : Nat) :
    extendsSt st (processPacketInfo st packet pos).1 := by
  rw [processPacketInfo]
  split
  · exact ⟨⟨[], by simp⟩, ⟨[], by simp⟩⟩
  · exact extendsSt_refl st

theorem processXmlConfig_extends (px : List Nat → Except PyErr XmlElem) (st : St)
    (packet : List Nat) (pos size : Nat) :
    extendsSt st (processXmlConfig px st packet pos size).1 := by
  rw [processXmlConfig]
  cases px (readBytes packet pos size) with
  | error e => exact ⟨⟨[], by simp⟩, ⟨[], by simp⟩⟩
  | ok root =>
    refine ⟨⟨[], by simp⟩, ?_⟩
    exact parseScalingXML_monotone root st.scaling_info

theorem processSyncFixed_extends (st : St) (packet : List Nat) (pos : Nat) :
    extendsSt st (processSyncFixed st packet pos).1 := by
  rcases processSyncFixed_cases st packet pos with ⟨-, h⟩ | ⟨-, b, h⟩
  · rw [h]
    exact extendsSt_refl st
  · rw [h]
    exact ⟨⟨[b], rfl⟩, ⟨[], by simp⟩⟩

theorem processAsyncFixed_extends (st : St) (packet : List Nat) (pos : Nat) :
    extendsSt st (processAsyncFixed st packet pos).1 := by
  rcases processAsyncFixed_cases st packet pos with ⟨-, h⟩ | ⟨-, b, h⟩
  · rw [h]
    exact extendsSt_refl st
  · rw [h]
    exact ⟨⟨[b], rfl⟩, ⟨[], by simp⟩⟩

/-- Stepping through one of the dispatcher's guarded handler calls only
extends the state. -/
theorem ifStep_extends {c : Prop} [Decidable c] {st st1 : St} {e1 : Option PyErr}
    {r : St × Option PyErr} (hr : extendsSt st r.1)
    (heq : (if c then r else (st, none)) = (st1, e1)) : extendsSt st st1 := by
  have h1 : (if c then r else (st, none)).1 = st1 := by rw [heq]
  split at h1
  · subst h1
    exact hr
  · subst h1
    exact extendsSt_refl st

/-- Whenever the dispatch loop returns (normally or by a propagated
exception), the final state extends the entry state: channel blocks and
scaling entries were only appended. -/
theorem processPacketLoop_extends (px : List Nat → Except PyErr XmlElem)
    (packet : List Nat) :
    ∀ fuel pos hf st st' e,
      processPacketLoop px packet fuel pos hf st = some (st', e) → extendsSt st st' := by
  intro fuel
  induction fuel with
  | zero =>
    intro pos hf st st' e h
    exact absurd h (by simp [processPacketLoop])
  | succ n ih =>
    intro pos hf st st' e h
    rw [processPacketLoop] at h
    split at h
    · split at h
      · simp only [Option.some.injEq, Prod.mk.injEq] at h
        obtain ⟨rfl, -⟩ := h
        exact extendsSt_refl st
      · split at h
        · rename_i st1 e1 heq1
          have h1 := ifStep_extends (processPacketInfo_extends st packet _) heq1
          simp only [Option.some.injEq, Prod.mk.injEq] at h
          obtain ⟨rfl, -⟩ := h
          exact h1
        · rename_i st1 heq1
          have h1 := ifStep_extends (processPacketInfo_extends st packet _) heq1
          split at h
          · rename_i st2 e2 heq2
            have h2 := ifStep_extends (processXmlConfig_extends px st1 packet _ _) heq2
            simp only [Option.some.injEq, Prod.mk.injEq] at h
            obtain ⟨rfl, -⟩ := h
            exact extendsSt_trans h1 h2
          · rename_i st2 heq2
            have h2 := ifStep_extends (processXmlConfig_extends px st1 packet _ _) heq2
            split at h
            · rename_i st3 e3 heq3
              have h3 := ifStep_extends (processSyncFixed_extends st2 packet _) heq3
              simp only [Option.some.injEq, Prod.mk.injEq] at h
              obtain ⟨rfl, -⟩ := h
              exact extendsSt_trans (extendsSt_trans h1 h2) h3
            · rename_i st3 heq3
              have h3 := ifStep_extends (processSyncFixed_extends st2 packet _) heq3
              split at h
              · rename_i st4 e4 heq4
                have h4 := ifStep_extends (processAsyncFixed_extends st3 packet _) heq4
                simp only [Option.some.injEq, Prod.mk.injEq] at h
                obtain ⟨rfl, -⟩ := h
                exact extendsSt_trans (extendsSt_trans (extendsSt_trans h1 h2) h3) h4
              · rename_i st4 heq4
                have h4 := ifStep_extends (processAsyncFixed_extends st3 packet _) heq4
                exact extendsSt_trans
                  (extendsSt_trans (extendsSt_trans (extendsSt_trans h1 h2) h3) h4)
                  (ih _ hf st4 st' e h)
    · simp only [Option.some.injEq, Prod.mk.injEq] at h
      obtain ⟨rfl, -⟩ := h
      exact extendsSt_refl st

/-- A list equal to `l1 ++ t` gives back `l1` under `take l1.length`. -/
theorem take_length_of_append {α : Type} {l1 l2 : List α}
    (h : ∃ t, l2 = l1 ++ t) : l2.take l1.length = l1 := by
  obtain ⟨t, rfl⟩ := h
  exact List.take_left l1 t

/-- C9: decoding is append-only per sub-record.  Each of the two sample
sub-record decoders either appends exactly one block (success: the old
result list is an unchanged prefix and the length grows by one) or, on
any raise, leaves the result list exactly as it was; and whenever the
dispatch loop stops — normally or with a propagated exception after any
number of decoded sub-records — every block appended earlier is still
in place, unchanged, at its position. -/
theorem c9_decoding_append_only :
    (∀ st packet pos st' e, processSyncFixed st packet pos = (st', e) →
       st'.channelValue.take st.channelValue.length = st.channelValue ∧
       (e = none → st'.channelValue.length = st.channelValue.length + 1) ∧
       (e ≠ none → st'.channelValue = st.channelValue)) ∧
    (∀ st packet pos st' e, processAsyncFixed st packet pos = (st', e) →
       st'.channelValue.take st.channelValue.length = st.channelValue ∧
       (e = none → st'.channelValue.length = st.channelValue.length + 1) ∧
       (e ≠ none → st'.channelValue = st.channelValue)) ∧
    (∀ px packet fuel pos hf st st' e,
       processPacketLoop px packet fuel pos hf st = some (st', e) →
       st'.channelValue.take st.channelValue.length = st.channelValue) := by
  refine ⟨?_, ?_, ?_⟩
  · intro st packet pos st' e hp
    rcases processSyncFixed_cases st packet pos with ⟨he, h1⟩ | ⟨he, b, h1⟩
    · rw [hp] at he h1
      dsimp only at he h1
      subst h1
      exact ⟨List.take_length _, fun hno => absurd hno he, fun _ => rfl⟩
    · rw [hp] at he h1
      dsimp only at he h1
      subst h1
      subst he
      refine ⟨List.take_left _ _, fun _ => ?_, fun hne => absurd rfl hne⟩
      simp
  · intro st packet pos st' e hp
    rcases processAsyncFixed_cases st packet pos with ⟨he, h1⟩ | ⟨he, b, h1⟩
    · rw [hp] at he h1
      dsimp only at he h1
      subst h1
      exact ⟨List.take_length _, fun hno => absurd hno he, fun _ => rfl⟩
    · rw [hp] at he h1
      dsimp only at he h1
      subst h1
      subst he
      refine ⟨List.take_left _ _, fun _ => ?_, fun hne => absurd rfl hne⟩
      simp
  · intro px packet fuel pos hf st st' e h
    exact take_length_of_append (processPacketLoop_extends px packet fuel pos hf st st' e h).1

/-- Witness for C9 at the concrete sync-fixed run of `c3Packet`: one
block is appended and the (empty) prefix of earlier blocks is intact. -/
theorem c9_decoding_append_only_witness :
    c3StFinal.channelValue.take c3St.channelValue.length = c3St.channelValue ∧
    c3StFinal.channelValue.length = c3St.channelValue.length + 1 := by
  have h := c9_decoding_append_only.1 c3St c3Packet 0 c3StFinal none
    (by with_unfolding_all rfl)
  exact ⟨h.1, h.2.1 rfl⟩

/-- The scaling entry contributed by one channel child: the factor and
offset attributes of its first nested element, defaulted to 1 and 0
(the `none` arm is never reached for a child with a nested element). -/
def scalingEntryOf (c : XmlElem) : ℚ × ℚ :=
  match c.children.head? with
  | some g => (g.factor.getD 1, g.offset.getD 0)
  | none => (1, 0)

/-- On a `ChannelInfo` document each of whose channel children has a
nested element, `parseScalingXMLGo` appends exactly one entry per child,
in document order, and raises nothing. -/
theorem parseScalingXMLGo_wf :
    ∀ (children : List XmlElem) (acc : List (ℚ × ℚ)),
      (∀ c ∈ children, c.children ≠ []) →
      parseScalingXMLGo children acc = (acc ++ children.map scalingEntryOf, none) := by
  intro children
  induction children with
  | nil =>
    intro acc _
    simp [parseScalingXMLGo]
  | cons c rest ih =>
    intro acc hw
    cases hh : c.children.head? with
    | none =>
      exact absurd (List.head?_eq_none_iff.mp hh) (hw c (by simp))
    | some g =>
      rw [parseScalingXMLGo, hh]
      dsimp only
      rw [ih _ (fun x hx => hw x (List.mem_cons_of_mem c hx))]
      simp [scalingEntryOf, hh]

/-- C10: the session scaling table only ever grows.  `parseScalingXML`
on a `ChannelInfo` root (each channel child carrying its nested element)
appends exactly one `(factor, offset)` entry per child with defaults 1
and 0; a root with any other tag leaves the table unchanged; every
outcome of `parseScalingXML` — including an interrupted parse — keeps
the existing entries as an unchanged prefix; every run of the dispatch
loop keeps the existing entries as an unchanged prefix (no removal,
reorder or overwrite); and `processPacket` resets the per-packet channel
index to zero while passing the scaling table through untouched. -/
theorem c10_scaling_table_growth :
    (∀ root scaling, root.tag = "ChannelInfo" →
        (∀ c ∈ root.children, c.children ≠ []) →
        parseScalingXML root scaling
          = (scaling ++ root.children.map scalingEntryOf, none)) ∧
    (∀ root scaling, root.tag ≠ "ChannelInfo" →
        parseScalingXML root scaling = (scaling, none)) ∧
    (∀ root scaling, (parseScalingXML root scaling).1.take scaling.length = scaling) ∧
    (∀ px packet fuel pos hf st st' e,
        processPacketLoop px packet fuel pos hf st = some (st', e) →
        st'.scaling_info.take st.scaling_info.length = st.scaling_info) ∧
    (∀ px st, processPacket px ([] : List Nat) st
        = some ({ st with actual_channel_idx := 0 }, none)) := by
  refine ⟨?_, ?_, ?_, ?_, ?_⟩
  · intro root scaling htag hw
    rw [parseScalingXML, if_pos htag]
    exact parseScalingXMLGo_wf root.children scaling hw
  · intro root scaling htag
    rw [parseScalingXML, if_neg htag]
  · intro root scaling
    exact take_length_of_append (parseScalingXML_monotone root scaling)
  · intro px packet fuel pos hf st st' e h
    exact take_length_of_append (processPacketLoop_extends px packet fuel pos hf st st' e h).2
  · intro px st
    rfl

/-- A two-channel configuration document: the first channel's nested
element has factor 2 and offset 3, the second's has neither attribute. -/
def c10Root : XmlElem :=
  .node "ChannelInfo" none none
    [.node "Channel" none none [.node "Scaling" (some 2) (some 3) []],
     .node "Channel" none none [.node "Scaling" none none []]]

/-- Witness for C10: parsing `c10Root` over a one-entry table appends
`(2, 3)` and the defaulted `(1, 0)` after the existing entry. -/
theorem c10_scaling_table_growth_witness :
    parseScalingXML c10Root [(9, 9)] = ([(9, 9), (2, 3), (1, 0)], none) := by
  have hw : ∀ c ∈ c10Root.children, c.children ≠ [] := by
    intro c hc
    simp only [c10Root, XmlElem.children, List.mem_cons, List.not_mem_nil, or_false] at hc
    rcases hc with rfl | rfl
    · simp [XmlElem.children]
    · simp [XmlElem.children]
  have h := c10_scaling_table_growth.1 c10Root [(9, 9)] rfl hw
  rw [h]
  rfl

end OxygenDst
